import Mathlib

/-!
Verification of the weather-aware property search core.

Shallow embedding of:
* the weather-code taxonomy (`WeatherGroups`, `matchesWeatherGroup`,
  `getWeatherGroupLabel`),
* the coordinate cache key and humidity extraction of the open-meteo
  fetcher (`cacheKey`, `extractHumidity`, `fetchWeatherForProperties`),
* the query normalization and the batched filtered-search pipeline of
  `getProperties`.

JavaScript numbers are modelled as `Rat` (the values arising here are
decimal/integral, far below any double-precision boundary), weather codes as
`Int` (the taxonomy tables contain integers only), absent/null values as
`Option`, and the upstream network as an explicit oracle function passed to
the definitions that perform fetches.
-/

namespace PropWeather

/-! ### Weather taxonomy (src `lib/weather.ts`) -/

/-- The fixed group tables: each group name maps to its set of integer
weather codes, written as the literal lists from the source.  An unknown
name maps to the empty list (the source never indexes the table with an
unknown name). -/
def WeatherGroups : String → List Int
  | "clear" => [0]
  | "cloudy" => [1, 2, 3]
  | "drizzle" => [51, 52, 53, 54, 55, 56, 57]
  | "rainy" => [61, 62, 63, 64, 65, 66, 67, 80, 81, 82]
  | "snow" => [71, 72, 73, 74, 75, 76, 77, 85, 86]
  | _ => []

/-- Model of `Object.keys(WeatherGroups)`: insertion order of the object literal. -/
def WEATHER_GROUP_KEYS : List String :=
  ["clear", "cloudy", "drizzle", "rainy", "snow"]

/-- Source `matchesWeatherGroup(code, groups?)`: no groups (or an
empty list) matches everything; unknown group names are discarded; if none
survive it again matches everything; a non-numeric code matches nothing;
otherwise the code must lie in some surviving group's table. -/
def matchesWeatherGroup (code : Option Int) (groups : Option (List String)) :
    Bool :=
  match groups with
  | none => true
  | some gs =>
    if gs.length = 0 then true
    else
      let validGroups := gs.filter (fun g => WEATHER_GROUP_KEYS.contains g)
      if validGroups.length = 0 then true
      else
        match code with
        | none => false
        | some c => validGroups.any (fun g => (WeatherGroups g).contains c)

/-- Source `getWeatherGroupLabel(code)`: the first key (in table
order) whose code table contains the code, `none` for a non-numeric code or
an unmatched one. -/
def getWeatherGroupLabel (code : Option Int) : Option String :=
  match code with
  | none => none
  | some c => WEATHER_GROUP_KEYS.find? (fun g => (WeatherGroups g).contains c)

/-! #### Taxonomy lemmas -/

lemma list_contains_iff {α : Type} [BEq α] [LawfulBEq α] {l : List α} {a : α} :
    l.contains a = true ↔ a ∈ l :=
  List.elem_iff

lemma weatherGroups_disjoint {c : Int} {g₁ g₂ : String}
    (h₁ : c ∈ WeatherGroups g₁) (h₂ : c ∈ WeatherGroups g₂)
    (hg₁ : g₁ ∈ WEATHER_GROUP_KEYS) (hg₂ : g₂ ∈ WEATHER_GROUP_KEYS) :
    g₁ = g₂ := by
  simp only [WEATHER_GROUP_KEYS, List.mem_cons, List.not_mem_nil, or_false]
    at hg₁ hg₂
  rcases hg₁ with rfl | rfl | rfl | rfl | rfl <;>
    rcases hg₂ with rfl | rfl | rfl | rfl | rfl <;>
    simp_all [WeatherGroups] <;> omega

lemma label_eq_some_iff {c : Int} {g : String} :
    getWeatherGroupLabel (some c) = some g ↔
      c ∈ WeatherGroups g ∧ g ∈ WEATHER_GROUP_KEYS := by
  constructor
  · intro h
    have hmem := List.find?_some h
    have hmem' := List.mem_of_find?_eq_some h
    exact ⟨list_contains_iff.1 hmem, hmem'⟩
  · rintro ⟨hc, hg⟩
    simp only [getWeatherGroupLabel]
    rcases hfind : WEATHER_GROUP_KEYS.find? (fun g => (WeatherGroups g).contains c) with _ | g'
    · exfalso
      have := List.find?_eq_none.1 hfind g hg
      exact this (list_contains_iff.2 hc)
    · have hc' := List.find?_some hfind
      have hg' := List.mem_of_find?_eq_some hfind
      exact congrArg some
        (weatherGroups_disjoint (list_contains_iff.1 hc') hc hg' hg)

/-- C6: `getWeatherGroupLabel` returns the unique group whose code table
contains the code (the five tables are pairwise disjoint), `none` when no
table contains the code, and `none` on a non-numeric input. -/
theorem getWeatherGroupLabel_classifies (c : Int) :
    (∀ g₁ g₂, g₁ ∈ WEATHER_GROUP_KEYS → g₂ ∈ WEATHER_GROUP_KEYS →
      c ∈ WeatherGroups g₁ → c ∈ WeatherGroups g₂ → g₁ = g₂) ∧
    (∀ g, g ∈ WEATHER_GROUP_KEYS → c ∈ WeatherGroups g →
      getWeatherGroupLabel (some c) = some g) ∧
    ((∀ g, g ∈ WEATHER_GROUP_KEYS → c ∉ WeatherGroups g) →
      getWeatherGroupLabel (some c) = none) ∧
    getWeatherGroupLabel none = none := by
  refine ⟨fun g₁ g₂ hg₁ hg₂ h₁ h₂ => weatherGroups_disjoint h₁ h₂ hg₁ hg₂,
    fun g hg hc => label_eq_some_iff.2 ⟨hc, hg⟩, fun h => ?_, rfl⟩
  rcases hfind : getWeatherGroupLabel (some c) with _ | g
  · rfl
  · exact absurd (label_eq_some_iff.1 hfind).1
      (h g (label_eq_some_iff.1 hfind).2)

/-- Witness for `getWeatherGroupLabel_classifies` at code 61 (rainy). -/
theorem getWeatherGroupLabel_classifies_witness :
    getWeatherGroupLabel (some 61) = some "rainy" :=
  (getWeatherGroupLabel_classifies 61).2.1 "rainy" (by decide) (by decide)

/-- C5: `matchesWeatherGroup` is true when the group list is absent or
empty; otherwise, with `valid` the requested names that are real group
keys: true when `valid` is empty, false for a non-numeric code, and for a
numeric code true exactly when the code lies in some group of `valid`. -/
theorem matchesWeatherGroup_spec (code : Option Int)
    (groups : Option (List String)) :
    (groups = none ∨ groups = some [] → matchesWeatherGroup code groups = true) ∧
    (∀ gs, groups = some gs → gs ≠ [] →
      (gs.filter (fun g => WEATHER_GROUP_KEYS.contains g) = [] →
        matchesWeatherGroup code groups = true) ∧
      (gs.filter (fun g => WEATHER_GROUP_KEYS.contains g) ≠ [] →
        (code = none → matchesWeatherGroup code groups = false) ∧
        (∀ c, code = some c →
          (matchesWeatherGroup code groups = true ↔
            ∃ g ∈ gs.filter (fun g => WEATHER_GROUP_KEYS.contains g),
              c ∈ WeatherGroups g)))) := by
  constructor
  · rintro (rfl | rfl) <;> simp [matchesWeatherGroup]
  · rintro gs rfl hne
    have hlen : ¬ gs.length = 0 := by
      simpa [List.length_eq_zero] using hne
    have hred : matchesWeatherGroup code (some gs) =
        (if (gs.filter (fun g => WEATHER_GROUP_KEYS.contains g)).length = 0
         then true
         else
           match code with
           | none => false
           | some c =>
             (gs.filter (fun g => WEATHER_GROUP_KEYS.contains g)).any
               (fun g => (WeatherGroups g).contains c)) := by
      simp only [matchesWeatherGroup, if_neg hlen]
    refine ⟨fun hvalid => ?_, fun hvalid => ⟨?_, ?_⟩⟩
    · rw [hred, if_pos (by rw [hvalid]; rfl)]
    · rintro rfl
      have hlv : ¬ (gs.filter (fun g => WEATHER_GROUP_KEYS.contains g)).length = 0 := by
        simpa [List.length_eq_zero] using hvalid
      rw [hred, if_neg hlv]
    · rintro c rfl
      have hlv : ¬ (gs.filter (fun g => WEATHER_GROUP_KEYS.contains g)).length = 0 := by
        simpa [List.length_eq_zero] using hvalid
      rw [hred, if_neg hlv]
      rw [show (match some c with
          | none => false
          | some c =>
            (gs.filter (fun g => WEATHER_GROUP_KEYS.contains g)).any
              (fun g => (WeatherGroups g).contains c)) =
          (gs.filter (fun g => WEATHER_GROUP_KEYS.contains g)).any
            (fun g => (WeatherGroups g).contains c) from rfl]
      rw [List.any_eq_true]
      constructor
      · rintro ⟨g, hg, hc⟩
        exact ⟨g, hg, list_contains_iff.1 hc⟩
      · rintro ⟨g, hg, hc⟩
        exact ⟨g, hg, list_contains_iff.2 hc⟩

/-- Witness for `matchesWeatherGroup_spec`: code 2 against the request
`["cloudy", "bogus"]` matches via the surviving group `cloudy`. -/
theorem matchesWeatherGroup_spec_witness :
    matchesWeatherGroup (some 2) (some ["cloudy", "bogus"]) = true :=
  (((matchesWeatherGroup_spec (some 2) (some ["cloudy", "bogus"])).2
      ["cloudy", "bogus"] rfl (by decide)).2 (by decide)).2 2 rfl |>.2
    ⟨"cloudy", by decide⟩

/-- C10: for a numeric code and a non-empty list of valid group names, the
group filter agrees with the group label: the code matches the request
exactly when its label is a group belonging to the request. -/
theorem matchesWeatherGroup_agrees_label (c : Int) (gs : List String)
    (hne : gs ≠ []) (hvalid : ∀ s ∈ gs, s ∈ WEATHER_GROUP_KEYS) :
    matchesWeatherGroup (some c) (some gs) = true ↔
      ∃ g, getWeatherGroupLabel (some c) = some g ∧ g ∈ gs := by
  have hfilter : gs.filter (fun g => WEATHER_GROUP_KEYS.contains g) = gs :=
    List.filter_eq_self.2 (fun a ha => list_contains_iff.2 (hvalid a ha))
  have hlen : ¬ gs.length = 0 := by simpa [List.length_eq_zero] using hne
  have hred : matchesWeatherGroup (some c) (some gs) =
      gs.any (fun g => (WeatherGroups g).contains c) := by
    simp only [matchesWeatherGroup, if_neg hlen, hfilter, if_neg hlen]
  rw [hred, List.any_eq_true]
  constructor
  · rintro ⟨g, hg, hc⟩
    exact ⟨g, label_eq_some_iff.2 ⟨list_contains_iff.1 hc, hvalid g hg⟩, hg⟩
  · rintro ⟨g, hlabel, hg⟩
    exact ⟨g, hg, list_contains_iff.2 (label_eq_some_iff.1 hlabel).1⟩

/-- Witness for `matchesWeatherGroup_agrees_label` at code 0 and request
`["snow", "clear"]`. -/
theorem matchesWeatherGroup_agrees_label_witness :
    matchesWeatherGroup (some 0) (some ["snow", "clear"]) = true ↔
      ∃ g, getWeatherGroupLabel (some 0) = some g ∧ g ∈ ["snow", "clear"] :=
  matchesWeatherGroup_agrees_label 0 ["snow", "clear"] (by decide)
    (by decide)

/-! ### Cache key (src `lib/openMeteo.ts`, `cacheKey`)

`cacheKey(lat, lng)` is the string `lat.toFixed(4) + "," + lng.toFixed(4)`.
Strings are modelled as `List Char`.  `toFixed(4)` (ECMA-262): with `x` the
value, emit `"-"` when `x < 0` and then the decimal digits of the integer
`n` minimizing `|n / 10^4 - |x||`, ties resolved to the larger `n`
(i.e. `⌊|x|·10^4 + 1/2⌋`), with exactly four digits after the point. -/

def digitChar : Nat → Char
  | 0 => '0'
  | 1 => '1'
  | 2 => '2'
  | 3 => '3'
  | 4 => '4'
  | 5 => '5'
  | 6 => '6'
  | 7 => '7'
  | 8 => '8'
  | _ => '9'

/-- Decimal digits of `n`, most significant first, via structural fuel
(`n + 1` iterations always suffice since the value shrinks by a factor of
ten each step). -/
def natToCharsAux : Nat → Nat → List Char → List Char
  | 0, _, acc => acc
  | fuel + 1, n, acc =>
    let acc' := digitChar (n % 10) :: acc
    if n / 10 = 0 then acc' else natToCharsAux fuel (n / 10) acc'

def natToChars (n : Nat) : List Char := natToCharsAux (n + 1) n []

def pad4 (n : Nat) : List Char :=
  List.replicate (4 - (natToChars n).length) '0' ++ natToChars n

/-- The integer `toFixed(4)` rounds `|x|` to, scaled by `10^4`. -/
def jsRound4 (x : Rat) : Nat := (⌊x * 10000 + 1 / 2⌋).toNat

def toFixed4 (x : Rat) : List Char :=
  (if x < 0 then ['-'] else []) ++
    natToChars (jsRound4 |x| / 10000) ++
    '.' :: pad4 (jsRound4 |x| % 10000)

def cacheKey (lat lng : Rat) : List Char :=
  toFixed4 lat ++ ',' :: toFixed4 lng

/-! #### Cache-key lemmas -/

lemma digitChar_ne_comma (d : Nat) : digitChar d ≠ ',' := by
  match d with
  | 0 => decide
  | 1 => decide
  | 2 => decide
  | 3 => decide
  | 4 => decide
  | 5 => decide
  | 6 => decide
  | 7 => decide
  | 8 => decide
  | n + 9 => exact (by decide : ('9' : Char) ≠ ',')

lemma natToCharsAux_no_comma :
    ∀ (fuel n : Nat) (acc : List Char), ',' ∉ acc →
      ',' ∉ natToCharsAux fuel n acc := by
  intro fuel
  induction fuel with
  | zero => intro n acc hacc; exact hacc
  | succ fuel ih =>
    intro n acc hacc
    have hacc' : ',' ∉ digitChar (n % 10) :: acc := by
      intro h
      rcases List.mem_cons.1 h with h | h
      · exact digitChar_ne_comma (n % 10) h.symm
      · exact hacc h
    simp only [natToCharsAux]
    split
    · exact hacc'
    · exact ih (n / 10) _ hacc'

lemma natToChars_no_comma (n : Nat) : ',' ∉ natToChars n :=
  natToCharsAux_no_comma (n + 1) n [] (by simp)

lemma toFixed4_no_comma (x : Rat) : ',' ∉ toFixed4 x := by
  intro h
  simp only [toFixed4, List.mem_append, List.mem_cons] at h
  rcases h with (h | h) | h | h
  · split at h <;> simp_all
  · exact natToChars_no_comma _ h
  · exact absurd h.symm (by decide)
  · simp only [pad4, List.mem_append] at h
    rcases h with h | h
    · have := List.eq_of_mem_replicate h
      simp_all
    · exact natToChars_no_comma _ h

lemma append_comma_inj :
    ∀ {a a' b b' : List Char}, ',' ∉ a → ',' ∉ a' →
      a ++ ',' :: b = a' ++ ',' :: b' → a = a' ∧ b = b' := by
  intro a
  induction a with
  | nil =>
    intro a' b b' _ ha' h
    cases a' with
    | nil => simpa using h
    | cons c t =>
      simp only [List.nil_append, List.cons_append, List.cons.injEq] at h
      exact absurd (h.1 ▸ List.mem_cons_self c t) ha'
  | cons c t ih =>
    intro a' b b' ha ha' h
    cases a' with
    | nil =>
      simp only [List.cons_append, List.nil_append, List.cons.injEq] at h
      exact absurd (h.1 ▸ List.mem_cons_self c t) ha
    | cons c' t' =>
      simp only [List.cons_append, List.cons.injEq] at h
      obtain ⟨rfl, h2⟩ := h
      have ht : ',' ∉ t := fun hm => ha (List.mem_cons_of_mem _ hm)
      have ht' : ',' ∉ t' := fun hm => ha' (List.mem_cons_of_mem _ hm)
      obtain ⟨rfl, rfl⟩ := ih ht ht' h2
      exact ⟨rfl, rfl⟩

lemma toFixed4_of_nonneg {x : Rat} (hx : ¬ x < 0) {m : Nat}
    (hm : jsRound4 |x| = m) :
    toFixed4 x = natToChars (m / 10000) ++ '.' :: pad4 (m % 10000) := by
  rw [toFixed4, if_neg hx, hm, List.nil_append]

/-- C4 counterexample: 0.00004 and 0.00006 agree on sign, integer part and
the first four decimal digits (both truncate to 0 at scale `10^4`), yet
their keys differ, because `toFixed(4)` rounds at the fifth digit.
Conversely 0.0001 and 0.00009999 already differ at the fourth decimal
digit, yet round to the same key. -/
theorem cacheKey_digit_claim_false :
    (⌊(4 / 100000 : Rat) * 10000⌋ = ⌊(6 / 100000 : Rat) * 10000⌋ ∧
      cacheKey (4 / 100000) 0 ≠ cacheKey (6 / 100000) 0) ∧
    (⌊(1 / 10000 : Rat) * 10000⌋ ≠ ⌊(9999 / 100000000 : Rat) * 10000⌋ ∧
      cacheKey (1 / 10000) 0 = cacheKey (9999 / 100000000) 0) := by
  have e0 : jsRound4 |(0 : Rat)| = 0 := by
    rw [jsRound4, abs_of_nonneg (le_refl (0 : Rat))]
    norm_num [Int.floor_eq_iff]
  have e1 : jsRound4 |(4 / 100000 : Rat)| = 0 := by
    rw [jsRound4, abs_of_nonneg (by norm_num : (0 : Rat) ≤ 4 / 100000)]
    norm_num [Int.floor_eq_iff]
  have e2 : jsRound4 |(6 / 100000 : Rat)| = 1 := by
    rw [jsRound4, abs_of_nonneg (by norm_num : (0 : Rat) ≤ 6 / 100000)]
    norm_num [Int.floor_eq_iff]
  have e3 : jsRound4 |(1 / 10000 : Rat)| = 1 := by
    rw [jsRound4, abs_of_nonneg (by norm_num : (0 : Rat) ≤ 1 / 10000)]
    norm_num [Int.floor_eq_iff]
  have e4 : jsRound4 |(9999 / 100000000 : Rat)| = 1 := by
    rw [jsRound4, abs_of_nonneg (by norm_num : (0 : Rat) ≤ 9999 / 100000000)]
    norm_num [Int.floor_eq_iff]
  have t0 := toFixed4_of_nonneg (by norm_num : ¬ (0 : Rat) < 0) e0
  have t1 := toFixed4_of_nonneg (by norm_num : ¬ (4 / 100000 : Rat) < 0) e1
  have t2 := toFixed4_of_nonneg (by norm_num : ¬ (6 / 100000 : Rat) < 0) e2
  have t3 := toFixed4_of_nonneg (by norm_num : ¬ (1 / 10000 : Rat) < 0) e3
  have t4 := toFixed4_of_nonneg (by norm_num : ¬ (9999 / 100000000 : Rat) < 0) e4
  refine ⟨⟨by norm_num [Int.floor_eq_iff], ?_⟩,
    by norm_num [Int.floor_eq_iff], ?_⟩
  · rw [cacheKey, cacheKey, t0, t1, t2]
    decide
  · rw [cacheKey, cacheKey, t0, t3, t4]

/-- C4 amended: two coordinate pairs produce the same cache key exactly
when both coordinates have the same `toFixed(4)` rendering (rounding
half-away-from-zero at the fourth decimal, sign preserved). -/
theorem cacheKey_eq_iff (lat lng lat' lng' : Rat) :
    cacheKey lat lng = cacheKey lat' lng' ↔
      toFixed4 lat = toFixed4 lat' ∧ toFixed4 lng = toFixed4 lng' := by
  constructor
  · intro h
    exact append_comma_inj (toFixed4_no_comma lat) (toFixed4_no_comma lat') h
  · rintro ⟨h1, h2⟩
    simp [cacheKey, h1, h2]

/-! ### Humidity extraction (src `lib/openMeteo.ts`, inside `fetchWeather`)

`Date.parse` is abstracted as an oracle `parse : String → Option Int`
(`none` models `NaN`); timestamps are epoch milliseconds.  Hourly humidity
entries are `Option Rat` (`none` models a non-number array element).  The
loop state `(bestIdx, bestDiff)` starts at `(0, Infinity)`; `Infinity` is
modelled as `none`. -/

/-- Model of `let t = Date.parse(s); if (isNaN(t)) t = Date.parse(s + "Z")`. -/
def parse2 (parse : String → Option Int) (s : String) : Option Int :=
  match parse s with
  | some t => some t
  | none => parse (s ++ "Z")

/-- The `for` loop of the humidity extraction: scan the timestamps,
skipping unparsable ones, keeping the index with the strictly smallest
absolute distance from `now`. -/
def findBestP (parse : String → Option Int) (now : Int) :
    List String → Nat → Nat → Option Nat → Nat × Option Nat
  | [], _, bestIdx, bestDiff => (bestIdx, bestDiff)
  | s :: rest, i, bestIdx, bestDiff =>
    match parse2 parse s with
    | none => findBestP parse now rest (i + 1) bestIdx bestDiff
    | some t =>
      if (match bestDiff with
          | none => true
          | some bd => decide ((now - t).natAbs < bd)) then
        findBestP parse now rest (i + 1) i (some ((now - t).natAbs))
      else
        findBestP parse now rest (i + 1) bestIdx bestDiff

/-- The humidity block of `fetchWeather`: guard on non-empty, equal-length
series, run the nearest-sample loop, then read `hums[bestIdx]` and keep it
only if it is a number. -/
def extractHumidity (parse : String → Option Int) (now : Int)
    (times : List String) (hums : List (Option Rat)) : Option Rat :=
  if times.length ≠ 0 ∧ hums.length ≠ 0 ∧ times.length = hums.length then
    match hums[(findBestP parse now times 0 0 none).1]? with
    | some (some h) => some h
    | _ => none
  else none

/-! #### Humidity-extraction lemmas -/

lemma findBestP_all_none (parse : String → Option Int) (now : Int) :
    ∀ (l : List String) (i b : Nat) (bd : Option Nat),
      (∀ s ∈ l, parse2 parse s = none) →
      findBestP parse now l i b bd = (b, bd) := by
  intro l
  induction l with
  | nil => intro i b bd _; rfl
  | cons s rest ih =>
    intro i b bd hall
    have hp : parse2 parse s = none := hall s (List.mem_cons_self s rest)
    simp only [findBestP, hp]
    exact ih (i + 1) b bd (fun s' hs' => hall s' (List.mem_cons_of_mem _ hs'))

lemma findBestP_spec (parse : String → Option Int) (now : Int) :
    ∀ (l : List String) (i b : Nat) (bd : Option Nat),
      (((findBestP parse now l i b bd).1 = b ∧
          (findBestP parse now l i b bd).2 = bd) ∨
        (∃ (k : Nat) (s : String) (t : Int), l[k]? = some s ∧
          parse2 parse s = some t ∧
          (findBestP parse now l i b bd).1 = i + k ∧
          (findBestP parse now l i b bd).2 = some ((now - t).natAbs))) ∧
      (∀ (k : Nat) (s : String) (t : Int), l[k]? = some s →
        parse2 parse s = some t →
        ∃ d, (findBestP parse now l i b bd).2 = some d ∧
          d ≤ (now - t).natAbs) ∧
      (∀ v, bd = some v →
        ∃ d, (findBestP parse now l i b bd).2 = some d ∧ d ≤ v) := by
  intro l
  induction l with
  | nil =>
    intro i b bd
    refine ⟨Or.inl ⟨rfl, rfl⟩, fun k s t hk => ?_, fun v hv => ⟨v, by simp [findBestP, hv]⟩⟩
    simp at hk
  | cons s rest ih =>
    intro i b bd
    rcases hp : parse2 parse s with _ | t
    · have hred : findBestP parse now (s :: rest) i b bd =
          findBestP parse now rest (i + 1) b bd := by
        simp only [findBestP, hp]
      obtain ⟨h1, h2, h3⟩ := ih (i + 1) b bd
      rw [hred]
      refine ⟨?_, ?_, h3⟩
      · rcases h1 with h | ⟨k, s', t', hk, hpt, hr1, hr2⟩
        · exact Or.inl h
        · exact Or.inr ⟨k + 1, s', t', by simpa using hk, hpt,
            by rw [hr1]; omega, hr2⟩
      · intro k s' t' hk hpt
        cases k with
        | zero =>
          rw [List.getElem?_cons_zero] at hk
          obtain rfl : s = s' := by injection hk
          rw [hp] at hpt; exact absurd hpt (by simp)
        | succ k =>
          rw [List.getElem?_cons_succ] at hk
          exact h2 k s' t' hk hpt
    · rcases bd with _ | v
      · have hred : findBestP parse now (s :: rest) i b none =
            findBestP parse now rest (i + 1) i (some ((now - t).natAbs)) := by
          simp only [findBestP, hp, if_pos]
        obtain ⟨h1, h2, h3⟩ := ih (i + 1) i (some ((now - t).natAbs))
        rw [hred]
        refine ⟨?_, ?_, fun v hv => by simp at hv⟩
        · rcases h1 with ⟨hr1, hr2⟩ | ⟨k, s', t', hk, hpt, hr1, hr2⟩
          · exact Or.inr ⟨0, s, t, List.getElem?_cons_zero, hp,
              by rw [hr1]; omega, hr2⟩
          · exact Or.inr ⟨k + 1, s', t', by simpa using hk, hpt,
              by rw [hr1]; omega, hr2⟩
        · intro k s' t' hk hpt
          cases k with
          | zero =>
            rw [List.getElem?_cons_zero] at hk
            obtain rfl : s = s' := by injection hk
            rw [hp] at hpt
            obtain rfl : t = t' := by injection hpt
            exact h3 _ rfl
          | succ k =>
            rw [List.getElem?_cons_succ] at hk
            exact h2 k s' t' hk hpt
      · rcases Nat.lt_or_ge ((now - t).natAbs) v with hlt | hge
        · have hred : findBestP parse now (s :: rest) i b (some v) =
              findBestP parse now rest (i + 1) i (some ((now - t).natAbs)) := by
            simp only [findBestP, hp, hlt, decide_eq_true_eq, if_pos]
          obtain ⟨h1, h2, h3⟩ := ih (i + 1) i (some ((now - t).natAbs))
          rw [hred]
          refine ⟨?_, ?_, ?_⟩
          · rcases h1 with ⟨hr1, hr2⟩ | ⟨k, s', t', hk, hpt, hr1, hr2⟩
            · exact Or.inr ⟨0, s, t, List.getElem?_cons_zero, hp,
                by rw [hr1]; omega, hr2⟩
            · exact Or.inr ⟨k + 1, s', t', by simpa using hk, hpt,
                by rw [hr1]; omega, hr2⟩
          · intro k s' t' hk hpt
            cases k with
            | zero =>
              rw [List.getElem?_cons_zero] at hk
              obtain rfl : s = s' := by injection hk
              rw [hp] at hpt
              obtain rfl : t = t' := by injection hpt
              exact h3 _ rfl
            | succ k =>
              rw [List.getElem?_cons_succ] at hk
              exact h2 k s' t' hk hpt
          · intro w hw
            obtain rfl : v = w := by injection hw
            obtain ⟨d, hd, hdle⟩ := h3 _ rfl
            exact ⟨d, hd, le_trans hdle (Nat.le_of_lt hlt)⟩
        · have hred : findBestP parse now (s :: rest) i b (some v) =
              findBestP parse now rest (i + 1) b (some v) := by
            have hdec : decide ((now - t).natAbs < v) = false :=
              decide_eq_false (Nat.not_lt.2 hge)
            simp only [findBestP, hp, hdec, Bool.false_eq_true, if_false]
          obtain ⟨h1, h2, h3⟩ := ih (i + 1) b (some v)
          rw [hred]
          refine ⟨?_, ?_, h3⟩
          · rcases h1 with h | ⟨k, s', t', hk, hpt, hr1, hr2⟩
            · exact Or.inl h
            · exact Or.inr ⟨k + 1, s', t', by simpa using hk, hpt,
                by rw [hr1]; omega, hr2⟩
          · intro k s' t' hk hpt
            cases k with
            | zero =>
              rw [List.getElem?_cons_zero] at hk
              obtain rfl : s = s' := by injection hk
              rw [hp] at hpt
              obtain rfl : t = t' := by injection hpt
              obtain ⟨d, hd, hdle⟩ := h3 _ rfl
              exact ⟨d, hd, le_trans hdle hge⟩
            | succ k =>
              rw [List.getElem?_cons_succ] at hk
              exact h2 k s' t' hk hpt

/-- C3 counterexample: with a single timestamp that fails both parses
(`parse` is constantly `NaN`, also after the appended UTC marker), the
extraction still returns the first humidity sample, because `bestIdx`
stays at its initial value `0`; the claim requires `none` here. -/
theorem extractHumidity_claim_false :
    extractHumidity (fun _ => none) 0 ["x"] [some 40] = some 40 ∧
      parse2 (fun _ => none) "x" = none :=
  ⟨rfl, rfl⟩

/-- C3 amended: the humidity extraction is a total function (it never
raises); on an empty or length-mismatched series it yields `none`; when
some timestamp parses (directly or with the UTC marker) the chosen sample
sits at a parseable index whose distance to `now` is minimal among all
parseable indices; but when *no* timestamp parses, the first sample is
returned (if numeric) rather than `none`. -/
theorem extractHumidity_amended (parse : String → Option Int) (now : Int)
    (times : List String) (hums : List (Option Rat)) :
    (¬ (times.length ≠ 0 ∧ hums.length ≠ 0 ∧ times.length = hums.length) →
      extractHumidity parse now times hums = none) ∧
    ((times.length ≠ 0 ∧ hums.length ≠ 0 ∧ times.length = hums.length) →
      ((∀ s ∈ times, parse2 parse s = none) →
        ∃ h0, hums[0]? = some h0 ∧
          extractHumidity parse now times hums = h0) ∧
      (∀ (k : Nat) (s : String), times[k]? = some s →
        (parse2 parse s).isSome →
        ∃ (j : Nat) (sj : String) (tj : Int) (hj : Option Rat),
          times[j]? = some sj ∧ parse2 parse sj = some tj ∧
          hums[j]? = some hj ∧
          extractHumidity parse now times hums = hj ∧
          ∀ (k' : Nat) (s' : String) (t' : Int), times[k']? = some s' →
            parse2 parse s' = some t' →
            (now - tj).natAbs ≤ (now - t').natAbs)) := by
  constructor
  · intro hcond
    rw [extractHumidity, if_neg hcond]
  · intro hcond
    have hlen : times.length = hums.length := hcond.2.2
    have hne : times.length ≠ 0 := hcond.1
    constructor
    · intro hall
      have hbest : findBestP parse now times 0 0 none = (0, none) :=
        findBestP_all_none parse now times 0 0 none hall
      have h0 : 0 < hums.length := by omega
      refine ⟨hums[0], List.getElem?_eq_getElem h0, ?_⟩
      rw [extractHumidity, if_pos hcond, hbest]
      rcases hh : hums[0] with _ | h
      · rw [List.getElem?_eq_getElem h0, hh]
      · rw [List.getElem?_eq_getElem h0, hh]
    · intro k s hk hps
      obtain ⟨t, ht⟩ := Option.isSome_iff_exists.1 hps
      obtain ⟨h1, h2, _⟩ := findBestP_spec parse now times 0 0 none
      obtain ⟨d, hd, _⟩ := h2 k s t hk ht
      rcases h1 with ⟨_, hr2⟩ | ⟨j, sj, tj, hj, hptj, hr1, hr2⟩
      · rw [hr2] at hd; exact absurd hd (by simp)
      · have hjlt : j < times.length := by
          have := List.getElem?_eq_some.1 hj
          exact this.1
        have hjh : j < hums.length := by omega
        refine ⟨j, sj, tj, hums[j], hj, hptj,
          List.getElem?_eq_getElem hjh, ?_, ?_⟩
        · rw [extractHumidity, if_pos hcond, hr1, Nat.zero_add,
            List.getElem?_eq_getElem hjh]
          rcases hums[j] with _ | h <;> rfl
        · intro k' s' t' hk' hpt'
          obtain ⟨d', hd', hle'⟩ := h2 k' s' t' hk' hpt'
          rw [hr2] at hd'
          obtain rfl : (now - tj).natAbs = d' := by injection hd'
          exact hle'

/-- Witness for `extractHumidity_amended`: one parseable timestamp at
distance 1 from `now`, one unparsable one; the parseable sample (55) is
chosen. -/
theorem extractHumidity_amended_witness :
    ∃ (j : Nat) (sj : String) (tj : Int) (hj : Option Rat),
      ["bad", "good"][j]? = some sj ∧
      parse2 (fun s => if s = "good" then some 1 else none) sj = some tj ∧
      [some 40, some 55][j]? = some hj ∧
      extractHumidity (fun s => if s = "good" then some 1 else none) 0
        ["bad", "good"] [some 40, some 55] = hj ∧
      ∀ (k' : Nat) (s' : String) (t' : Int),
        ["bad", "good"][k']? = some s' →
        parse2 (fun s => if s = "good" then some 1 else none) s' = some t' →
        (0 - tj).natAbs ≤ (0 - t').natAbs := by
  have := (extractHumidity_amended
      (fun s => if s = "good" then some 1 else none) 0
      ["bad", "good"] [some 40, some 55]).2
    (by refine ⟨by decide, by decide, by decide⟩) |>.2 1 "good"
    (by decide) (by rw [show parse2 (fun s => if s = "good" then some 1 else none) "good" = some 1 from rfl]; decide)
  exact this

/-! ### Bulk fetcher (src `lib/openMeteo.ts`, `fetchWeatherForProperties`)

`fetchWeather` is abstracted as an oracle producing either a composed
`WeatherResult` (the cache lookup, HTTP call and field extraction folded
into the oracle, which is deterministic within one call window) or the raw
failure text; `fetchWeather` itself wraps a failure into the message
`OpenMeteo fetch failed for lat,lng: …` (`fetchWeatherM`).  JS number
rendering inside the template literal is abstracted as `numStr`. -/

structure WeatherResult where
  temperature : Option Rat
  weathercode : Option Int
  humidity : Option Rat
  fetchedAt : Option String
deriving DecidableEq

structure PropCoord where
  id : Int
  lat : Rat
  lng : Rat
deriving DecidableEq

structure FetchOut where
  id : Int
  lat : Rat
  lng : Rat
  weather : Option WeatherResult
  weatherError : Option String
deriving DecidableEq

/-- The message of the error `fetchWeather` throws on a failed upstream
call. -/
def fetchFailMessage (numStr : Rat → String) (lat lng : Rat) (e : String) :
    String :=
  "OpenMeteo fetch failed for " ++ numStr lat ++ "," ++ numStr lng ++
    ": " ++ e

/-- Model of `fetchWeather`'s failure wrapping: a successful fetch returns the
composed result, a failure is re-thrown with the coordinate-tagged
message. -/
def fetchWeatherM (raw : Rat → Rat → Except String WeatherResult)
    (numStr : Rat → String) (lat lng : Rat) : Except String WeatherResult :=
  match raw lat lng with
  | Except.ok w => Except.ok w
  | Except.error e => Except.error (fetchFailMessage numStr lat lng e)

/-- Source `fetchWeatherForProperties`: map each property to an entry; a per-row
`try`/`catch` converts a failed `fetchWeather` into `weather: null` plus
the caught message, so no failure escapes (`Promise.all` then preserves
the input order). -/
def fetchWeatherForProperties
    (fW : Rat → Rat → Except String WeatherResult)
    (props : List PropCoord) : List FetchOut :=
  props.map fun p =>
    match fW p.lat p.lng with
    | Except.ok w => ⟨p.id, p.lat, p.lng, some w, none⟩
    | Except.error e => ⟨p.id, p.lat, p.lng, none, some e⟩

/-! #### Bulk-fetcher lemmas -/

lemma fetchFailMessage_ne_empty (numStr : Rat → String) (lat lng : Rat)
    (e : String) : fetchFailMessage numStr lat lng e ≠ "" := by
  intro h
  have hlen := congrArg String.length h
  simp only [fetchFailMessage, String.length_append] at hlen
  have h27 : ("OpenMeteo fetch failed for " : String).length = 27 := by decide
  rw [h27] at hlen
  have h0 : ("" : String).length = 0 := by decide
  rw [h0] at hlen
  omega

/-- C9: the bulk fetcher keeps a 1:1, order-preserving correspondence with
its input; an entry whose upstream fetch fails gets `weather = none` and a
non-empty `weatherError`, an entry whose fetch succeeds gets exactly the
fetched result (its value depends only on that row's own coordinates, so
sibling failures cannot change it); and the fetcher is a total function —
no single failure aborts the batch. -/
theorem fetchWeatherForProperties_per_row
    (raw : Rat → Rat → Except String WeatherResult)
    (numStr : Rat → String) (props : List PropCoord) :
    (fetchWeatherForProperties (fetchWeatherM raw numStr) props).length =
      props.length ∧
    (∀ (i : Nat) (p : PropCoord), props[i]? = some p →
      (∀ e, raw p.lat p.lng = Except.error e →
        (fetchWeatherForProperties (fetchWeatherM raw numStr) props)[i]? =
          some ⟨p.id, p.lat, p.lng, none,
            some (fetchFailMessage numStr p.lat p.lng e)⟩ ∧
        fetchFailMessage numStr p.lat p.lng e ≠ "") ∧
      (∀ w, raw p.lat p.lng = Except.ok w →
        (fetchWeatherForProperties (fetchWeatherM raw numStr) props)[i]? =
          some ⟨p.id, p.lat, p.lng, some w, none⟩)) := by
  constructor
  · exact List.length_map _ _
  · intro i p hp
    have hmap : (fetchWeatherForProperties (fetchWeatherM raw numStr) props)[i]? =
        (props[i]?).map (fun p =>
          match fetchWeatherM raw numStr p.lat p.lng with
          | Except.ok w => (⟨p.id, p.lat, p.lng, some w, none⟩ : FetchOut)
          | Except.error e => ⟨p.id, p.lat, p.lng, none, some e⟩) :=
      List.getElem?_map _ props i
    constructor
    · intro e he
      refine ⟨?_, fetchFailMessage_ne_empty numStr p.lat p.lng e⟩
      rw [hmap, hp, Option.map_some']
      rw [show fetchWeatherM raw numStr p.lat p.lng =
        Except.error (fetchFailMessage numStr p.lat p.lng e) by
          rw [fetchWeatherM, he]]
    · intro w hw
      rw [hmap, hp, Option.map_some']
      rw [show fetchWeatherM raw numStr p.lat p.lng = Except.ok w by
        rw [fetchWeatherM, hw]]

/-- Witness for `fetchWeatherForProperties_per_row`: a two-row batch whose
first fetch fails and whose second succeeds: the first entry carries the
wrapped non-empty error, the second the fetched result. -/
theorem fetchWeatherForProperties_per_row_witness :
    (fetchWeatherForProperties
        (fetchWeatherM
          (fun lat _ => if lat = 0 then Except.error "boom"
            else Except.ok ⟨some 20, some 0, none, none⟩)
          (fun _ => "n"))
        [⟨1, 0, 0⟩, ⟨2, 1, 1⟩])[0]? =
      some ⟨1, 0, 0, none,
        some (fetchFailMessage (fun _ => "n") 0 0 "boom")⟩ ∧
    fetchFailMessage (fun _ => "n") 0 0 "boom" ≠ "" ∧
    (fetchWeatherForProperties
        (fetchWeatherM
          (fun lat _ => if lat = 0 then Except.error "boom"
            else Except.ok ⟨some 20, some 0, none, none⟩)
          (fun _ => "n"))
        [⟨1, 0, 0⟩, ⟨2, 1, 1⟩])[1]? =
      some ⟨2, 1, 1, some ⟨some 20, some 0, none, none⟩, none⟩ := by
  have h := fetchWeatherForProperties_per_row
    (fun lat _ => if lat = 0 then Except.error "boom"
      else Except.ok ⟨some 20, some 0, none, none⟩)
    (fun _ => "n") [⟨1, 0, 0⟩, ⟨2, 1, 1⟩]
  have h0 := (h.2 0 ⟨1, 0, 0⟩ rfl).1 "boom" (by norm_num)
  have h1 := (h.2 1 ⟨2, 1, 1⟩ rfl).2 ⟨some 20, some 0, none, none⟩
    (by norm_num)
  exact ⟨h0.1, h0.2, h1⟩

/-! ### Query normalization (src `lib/utils.ts` and the head of
`use-cases/getProperties.ts`)

Numeric query parameters are modelled at the boundary of `parseNumber`:
`Option Rat` is the parsed finite number or `none` for a missing/invalid
parameter.  The `weather` parameter arrives as a raw string (split on
commas, trimmed, empties dropped) or as an array of strings. -/

/-- Source `clamp(n, min, max) = Math.max(min, Math.min(max, n))`. -/
def clamp (n mn mx : Rat) : Rat := max mn (min mx n)

/-- Source `parseWeatherGroups` from `lib/utils.ts`: a falsy input (absent or
empty string) yields `[]`; a string is split on commas, trimmed and
cleared of empties; an array is taken as is; then only known group keys
are kept. -/
def parseWeatherGroups (raw : Option (String ⊕ List String)) : List String :=
  match raw with
  | none => []
  | some (Sum.inl s) =>
    if s = "" then []
    else
      ((((s.splitOn ",").map (fun t => t.trim)).filter
          (fun t => t != "")).filter
        (fun a => WEATHER_GROUP_KEYS.contains a))
  | some (Sum.inr arr) => arr.filter (fun a => WEATHER_GROUP_KEYS.contains a)

structure RawQuery where
  tempMin : Option Rat
  tempMax : Option Rat
  humMin : Option Rat
  humMax : Option Rat
  take : Option Rat
  page : Option Rat
  weather : Option (String ⊕ List String)

structure Criteria where
  tempMin : Option Rat
  tempMax : Option Rat
  humMin : Option Rat
  humMax : Option Rat
  take : Int
  page : Rat
  weatherGroups : List String
deriving DecidableEq

/-- Lines 14–34 of `getProperties`: clamp supplied bounds, default and
clamp `take` (`Math.min(Math.max(1, Math.floor(takeRaw)), 200)`), default
and lower-bound `page` (`Math.max(1, pageRaw)` — no flooring), and parse
the weather groups. -/
def normalize (q : RawQuery) : Criteria :=
  { tempMin := q.tempMin.map (fun v => clamp v (-20) 50)
    tempMax := q.tempMax.map (fun v => clamp v (-20) 50)
    humMin := q.humMin.map (fun v => clamp v 0 100)
    humMax := q.humMax.map (fun v => clamp v 0 100)
    take := min (max 1 ⌊q.take.getD 20⌋) 200
    page := max 1 (q.page.getD 1)
    weatherGroups := parseWeatherGroups q.weather }

/-! #### Normalization lemmas -/

lemma clamp_mem {n mn mx : Rat} (h : mn ≤ mx) :
    mn ≤ clamp n mn mx ∧ clamp n mn mx ≤ mx :=
  ⟨le_max_left mn _, max_le h (min_le_left mx n)⟩

lemma parseWeatherGroups_valid (raw : Option (String ⊕ List String)) :
    ∀ s ∈ parseWeatherGroups raw, s ∈ WEATHER_GROUP_KEYS := by
  intro s hs
  rcases raw with _ | (str | arr)
  · simp [parseWeatherGroups] at hs
  · rw [parseWeatherGroups] at hs
    split at hs
    · simp at hs
    · exact list_contains_iff.1 (List.of_mem_filter hs)
  · exact list_contains_iff.1 (List.of_mem_filter hs)

/-- C7 counterexample: `page=2.5` survives normalization as `5/2`, which
is not an integer (its floor, `2`, differs from it): `page` is
lower-bounded at 1 but never floored. -/
theorem normalize_page_not_floored :
    (normalize ⟨none, none, none, none, none, some (5 / 2), none⟩).page =
      5 / 2 ∧
    ((⌊(5 / 2 : Rat)⌋ : Rat) ≠ 5 / 2) := by
  constructor
  · show max 1 (Option.getD (some (5 / 2 : Rat)) 1) = 5 / 2
    rw [Option.getD_some]
    rw [max_eq_right (by norm_num : (1 : Rat) ≤ 5 / 2)]
  · have h2 : ⌊(5 / 2 : Rat)⌋ = 2 := by
      norm_num [Int.floor_eq_iff]
    rw [h2]
    norm_num

/-- C7 amended: normalization clamps supplied temperature bounds into
[-20, 50] and humidity bounds into [0, 100] (absent ones stay absent),
clamps `take` into [1, 200] with default 20, keeps only known group names
(unknown tokens are dropped, never an error), and lower-bounds `page` at 1
with default 1 — without flooring it to an integer. -/
theorem normalize_spec (q : RawQuery) :
    (∀ v, q.tempMin = some v →
      ∃ w, (normalize q).tempMin = some w ∧ -20 ≤ w ∧ w ≤ 50) ∧
    (∀ v, q.tempMax = some v →
      ∃ w, (normalize q).tempMax = some w ∧ -20 ≤ w ∧ w ≤ 50) ∧
    (∀ v, q.humMin = some v →
      ∃ w, (normalize q).humMin = some w ∧ 0 ≤ w ∧ w ≤ 100) ∧
    (∀ v, q.humMax = some v →
      ∃ w, (normalize q).humMax = some w ∧ 0 ≤ w ∧ w ≤ 100) ∧
    (1 ≤ (normalize q).take ∧ (normalize q).take ≤ 200 ∧
      (q.take = none → (normalize q).take = 20)) ∧
    (1 ≤ (normalize q).page ∧ (q.page = none → (normalize q).page = 1) ∧
      (normalize q).page = max 1 (q.page.getD 1)) ∧
    (∀ s ∈ (normalize q).weatherGroups, s ∈ WEATHER_GROUP_KEYS) := by
  refine ⟨?_, ?_, ?_, ?_, ⟨?_, ?_, ?_⟩, ⟨le_max_left 1 _, ?_, rfl⟩,
    parseWeatherGroups_valid q.weather⟩
  · intro v hv
    refine ⟨clamp v (-20) 50, ?_, (clamp_mem (by norm_num)).1,
      (clamp_mem (by norm_num)).2⟩
    show q.tempMin.map (fun v => clamp v (-20) 50) = _
    rw [hv, Option.map_some']
  · intro v hv
    refine ⟨clamp v (-20) 50, ?_, (clamp_mem (by norm_num)).1,
      (clamp_mem (by norm_num)).2⟩
    show q.tempMax.map (fun v => clamp v (-20) 50) = _
    rw [hv, Option.map_some']
  · intro v hv
    refine ⟨clamp v 0 100, ?_, (clamp_mem (by norm_num)).1,
      (clamp_mem (by norm_num)).2⟩
    show q.humMin.map (fun v => clamp v 0 100) = _
    rw [hv, Option.map_some']
  · intro v hv
    refine ⟨clamp v 0 100, ?_, (clamp_mem (by norm_num)).1,
      (clamp_mem (by norm_num)).2⟩
    show q.humMax.map (fun v => clamp v 0 100) = _
    rw [hv, Option.map_some']
  · exact le_min (le_max_left 1 _) (by norm_num)
  · exact min_le_right _ 200
  · intro hnone
    show min (max 1 ⌊q.take.getD 20⌋) 200 = 20
    rw [hnone, Option.getD_none]
    norm_num
  · intro hnone
    show max 1 (q.page.getD 1) = 1
    rw [hnone, Option.getD_none, max_self]

/-- Witness for `normalize_spec` at a query supplying an out-of-range
temperature bound 999 (clamped to 50) and nothing else. -/
theorem normalize_spec_witness :
    ∃ w, (normalize ⟨some 999, none, none, none, none, none,
      none⟩).tempMin = some w ∧ -20 ≤ w ∧ w ≤ 50 :=
  (normalize_spec ⟨some 999, none, none, none, none, none, none⟩).1 999 rfl

/-! ### Filtered search pipeline (src `use-cases/getProperties.ts`)

The datastore is modelled as the list of properties matching the request's
text predicate, in scan order: `findMany {skip, take}` is `drop`/`take` on
that list and `count` its length (the collaborator's skip/take-pagination
contract).  Only `id`, `lat`, `lng` are interpreted by the pipeline, so a
`Property` carries exactly those.  The scan loop is written with a
structural fuel argument (`none` = fuel exhausted); `getProperties` hands
it `rows.length + 1` units, and `batchLoopF_scan_spec` proves that amount
always suffices, which is the loop's termination.  The second component of
the loop's result records the batch returned by each datastore query it
issued, so scan-behaviour claims can be stated. -/

structure Property where
  id : Int
  lat : Option Rat
  lng : Option Rat
deriving DecidableEq

def hasCoords (p : Property) : Bool := p.lat.isSome && p.lng.isSome

structure OutWeather where
  temperature : Option Rat
  weathercode : Option Int
  humidity : Option Rat
  fetchedAt : Option String
  weatherGroup : Option String
deriving DecidableEq

structure OutRow where
  base : Property
  weather : OutWeather
  weatherError : Option String
deriving DecidableEq

/-- A lower bound fails a row when the bound is supplied and the value is
missing or below it (`typeof v !== "number" || v < bound`). -/
def boundLowFails (bound val : Option Rat) : Bool :=
  match bound with
  | none => false
  | some b =>
    match val with
    | none => true
    | some v => decide (v < b)

/-- An upper bound fails a row when the bound is supplied and the value is
missing or above it. -/
def boundHighFails (bound val : Option Rat) : Bool :=
  match bound with
  | none => false
  | some b =>
    match val with
    | none => true
    | some v => decide (b < v)

/-- The row predicate of the filtered path: rows without weather fail;
each supplied bound must hold; with groups requested, a missing code fails
and otherwise `matchesWeatherGroup` decides. -/
def weatherPasses (crit : Criteria) (p : FetchOut) : Bool :=
  match p.weather with
  | none => false
  | some w =>
    if boundLowFails crit.tempMin w.temperature then false
    else if boundHighFails crit.tempMax w.temperature then false
    else if boundLowFails crit.humMin w.humidity then false
    else if boundHighFails crit.humMax w.humidity then false
    else if crit.weatherGroups.length > 0 then
      match w.weathercode with
      | none => false
      | some c => matchesWeatherGroup (some c) (some crit.weatherGroups)
    else true

/-- Model of the spread `{...p.weather, weatherGroup}`: spread of the (possibly null) weather
plus the resolved group label. -/
def toOutWeather (w : Option WeatherResult) (label : Option String) :
    OutWeather :=
  match w with
  | some w => ⟨w.temperature, w.weathercode, w.humidity, w.fetchedAt, label⟩
  | none => ⟨none, none, none, none, label⟩

/-- The body of one loop iteration past the coordinate check: fetch
weather for the rows with coordinates, filter by the weather predicate and
map each survivor back onto its base record (the `Map` lookup keeps the
last record for a duplicated id, hence `reverse.find?`; the `!` assertion
is modelled by a default that is never reached). -/
def processBatch (fW : Rat → Rat → Except String WeatherResult)
    (crit : Criteria) (dbBatch : List Property) : List OutRow :=
  let withCoords := dbBatch.filter hasCoords
  let toFetch := withCoords.map
    (fun p => PropCoord.mk p.id (p.lat.getD 0) (p.lng.getD 0))
  let propsWithWeather := fetchWeatherForProperties fW toFetch
  let batchFiltered := propsWithWeather.filter (weatherPasses crit)
  batchFiltered.map (fun p =>
    { base := (dbBatch.reverse.find? (fun q => q.id == p.id)).getD
        ⟨p.id, none, none⟩
      weather := toOutWeather p.weather
        (getWeatherGroupLabel
          (match p.weather with
           | some w => w.weathercode
           | none => none))
      weatherError := p.weatherError })

/-- The `while (hasMore && filtered.length < page * take)` loop of the
filtered path, lines 72–158: one recursion step per datastore query.  The
result pairs the final accumulator with the list of batches the loop
received, in scan order; `none` means the fuel ran out. -/
def batchLoopF (fW : Rat → Rat → Except String WeatherResult)
    (crit : Criteria) (rows : List Property) :
    Nat → List OutRow → Nat → Option (List OutRow × List (List Property))
  | 0, _, _ => none
  | fuel + 1, filtered, totalChecked =>
    if ((filtered.length : Rat) < crit.page * (crit.take : Rat)) then
      let dbBatch := (rows.drop totalChecked).take 200
      if dbBatch.length = 0 then some (filtered, [dbBatch])
      else
        if (dbBatch.filter hasCoords).length = 0 then
          (batchLoopF fW crit rows fuel filtered
            (totalChecked + dbBatch.length)).map
            (fun r => (r.1, dbBatch :: r.2))
        else
          let filtered' := filtered ++ processBatch fW crit dbBatch
          if dbBatch.length < 200 then some (filtered', [dbBatch])
          else
            (batchLoopF fW crit rows fuel filtered'
              (totalChecked + dbBatch.length)).map
              (fun r => (r.1, dbBatch :: r.2))
    else some (filtered, [])

/-- Truncation toward zero, as `ToIntegerOrInfinity` applies to a finite
number. -/
def ratTrunc (x : Rat) : Int := if x < 0 then -⌊-x⌋ else ⌊x⌋

/-- Clamp a relative index into `[0, len]` (ECMA-262 `Array.prototype.slice`
on a finite argument). -/
def jsRelIndex (len : Nat) (x : Rat) : Nat :=
  if ratTrunc x < 0 then ((len : Int) + ratTrunc x).toNat
  else min (ratTrunc x).toNat len

/-- Model of `Array.prototype.slice(s, e)` for finite numeric arguments. -/
def jsSlice {α : Type} (l : List α) (s e : Rat) : List α :=
  (l.drop (jsRelIndex l.length s)).take
    (jsRelIndex l.length e - jsRelIndex l.length s)

inductive RespData where
  | plain (rows : List Property)
  | withWeather (rows : List OutRow)
deriving DecidableEq

structure Response where
  data : RespData
  page : Rat
  take : Int
  total : Nat
  hasNextPage : Bool
deriving DecidableEq

inductive GetPropsResult where
  | ok (r : Response)
  | serverError
deriving DecidableEq

/-- Lines 160–172: slice `[(page-1)*take, (page-1)*take + take)` out of
the accumulator, report its length as `total` and compare the slice end
against it for `hasNextPage`. -/
def paginateFiltered (crit : Criteria) (filtered : List OutRow) : Response :=
  { data := RespData.withWeather
      (jsSlice filtered ((crit.page - 1) * (crit.take : Rat))
        ((crit.page - 1) * (crit.take : Rat) + (crit.take : Rat)))
    page := crit.page
    take := crit.take
    total := filtered.length
    hasNextPage :=
      decide ((crit.page - 1) * (crit.take : Rat) + (crit.take : Rat) <
        (filtered.length : Rat)) }

def hasWeatherFilters (crit : Criteria) : Bool :=
  crit.tempMin.isSome || crit.tempMax.isSome || crit.humMin.isSome ||
    crit.humMax.isSome || decide (crit.weatherGroups.length > 0)

/-- Modelled from the spec: the datastore collaborator's skip/take query
(`prisma.property.findMany({where, skip, take})` is outside `src/`; §6
specifies skip/take pagination over the text-matching rows).  A fractional
or negative `skip` — which the collaborator's typed interface rejects —
yields `none`, surfacing as the 500 branch of `getProperties`. -/
def dbFindMany (rows : List Property) (skip : Rat) (tk : Int) :
    Option (List Property) :=
  if skip.den = 1 ∧ 0 ≤ skip.num then
    some ((rows.drop skip.num.toNat).take tk.toNat)
  else none

/-- Source `getProperties`: normalize, then either the no-filter fast path
(count + skip/take page verbatim) or the batched filtered path. -/
def getProperties (fW : Rat → Rat → Except String WeatherResult)
    (q : RawQuery) (rows : List Property) : GetPropsResult :=
  let crit := normalize q
  if hasWeatherFilters crit then
    match batchLoopF fW crit rows (rows.length + 1) [] 0 with
    | some r => GetPropsResult.ok (paginateFiltered crit r.1)
    | none => GetPropsResult.serverError
  else
    match dbFindMany rows ((crit.page - 1) * (crit.take : Rat)) crit.take with
    | some props =>
      GetPropsResult.ok
        { data := RespData.plain props
          page := crit.page
          take := crit.take
          total := rows.length
          hasNextPage :=
            decide (crit.page * (crit.take : Rat) < (rows.length : Rat)) }
    | none => GetPropsResult.serverError

/-! #### Pagination of the accumulator (C2) -/

lemma ratTrunc_natCast (n : Nat) : ratTrunc (n : Rat) = (n : Int) := by
  rw [ratTrunc, if_neg (by exact not_lt.2 (Nat.cast_nonneg n)),
    Int.floor_natCast]

lemma jsRelIndex_natCast (len n : Nat) :
    jsRelIndex len (n : Rat) = min n len := by
  rw [jsRelIndex, ratTrunc_natCast,
    if_neg (by exact not_lt.2 (Int.natCast_nonneg n)), Int.toNat_natCast]

lemma jsSlice_natCast {α : Type} (l : List α) (s t : Nat) :
    jsSlice l (s : Rat) ((s : Rat) + (t : Rat)) = (l.drop s).take t := by
  rw [jsSlice, show (s : Rat) + (t : Rat) = ((s + t : Nat) : Rat) by
    push_cast; ring, jsRelIndex_natCast, jsRelIndex_natCast]
  rcases le_or_lt s l.length with hsl | hsl
  · rw [Nat.min_eq_left hsl]
    rcases le_or_lt (s + t) l.length with hstl | hstl
    · rw [Nat.min_eq_left hstl, Nat.add_sub_cancel_left]
    · rw [Nat.min_eq_right (le_of_lt hstl)]
      have hdl : (l.drop s).length = l.length - s := List.length_drop s l
      rw [List.take_of_length_le (by omega), List.take_of_length_le (by omega)]
  · rw [Nat.min_eq_right (le_of_lt hsl), Nat.min_eq_right (by omega)]
    rw [List.drop_eq_nil_of_le (le_of_lt hsl),
      List.drop_eq_nil_of_le (le_refl l.length)]
    simp

/-- C2: for any accumulator, any integral `page ≥ 1` and `take ∈ [1,200]`,
the filtered-path response slices exactly `[(page-1)·take, page·take)` out
of the accumulator, reports the accumulator's length as `total`, and sets
`hasNextPage` iff `page·take` is strictly below that length. -/
theorem paginateFiltered_slices (crit : Criteria) (filtered : List OutRow)
    (p t : Nat) (hpage : crit.page = (p : Rat))
    (htake : crit.take = (t : Int)) (hp : 1 ≤ p) (ht1 : 1 ≤ t)
    (ht2 : t ≤ 200) :
    (paginateFiltered crit filtered).data =
      RespData.withWeather ((filtered.drop ((p - 1) * t)).take t) ∧
    (paginateFiltered crit filtered).total = filtered.length ∧
    ((paginateFiltered crit filtered).hasNextPage = true ↔
      p * t < filtered.length) := by
  have hstart : (crit.page - 1) * (crit.take : Rat) =
      (((p - 1) * t : Nat) : Rat) := by
    rw [hpage, htake, Int.cast_natCast, Nat.cast_mul, Nat.cast_sub hp,
      Nat.cast_one]
  have htk : (crit.take : Rat) = (t : Rat) := by
    rw [htake, Int.cast_natCast]
  have hpt : (p - 1) * t + t = p * t := by
    cases p with
    | zero => exact absurd hp (by omega)
    | succ p => simp [Nat.succ_sub_one, Nat.succ_mul]
  have hstop : (crit.page - 1) * (crit.take : Rat) + (crit.take : Rat) =
      ((p * t : Nat) : Rat) := by
    rw [hstart, htk,
      show (((p - 1) * t : Nat) : Rat) + ((t : Nat) : Rat) =
        (((p - 1) * t + t : Nat) : Rat) from (Nat.cast_add _ _).symm,
      hpt]
  refine ⟨?_, rfl, ?_⟩
  · show RespData.withWeather _ = _
    rw [hstart, htk, jsSlice_natCast]
  · show decide _ = true ↔ _
    rw [hstop, decide_eq_true_eq, Nat.cast_lt]

/-- Witness for `paginateFiltered_slices`: five accumulated rows, page 2,
take 2. -/
theorem paginateFiltered_slices_witness :
    (paginateFiltered ⟨none, none, none, none, (2 : Int), (2 : Rat), []⟩
        [⟨⟨1, none, none⟩, ⟨none, none, none, none, none⟩, none⟩,
         ⟨⟨2, none, none⟩, ⟨none, none, none, none, none⟩, none⟩,
         ⟨⟨3, none, none⟩, ⟨none, none, none, none, none⟩, none⟩,
         ⟨⟨4, none, none⟩, ⟨none, none, none, none, none⟩, none⟩,
         ⟨⟨5, none, none⟩, ⟨none, none, none, none, none⟩, none⟩]).data =
      RespData.withWeather
        (([⟨⟨1, none, none⟩, ⟨none, none, none, none, none⟩, none⟩,
           ⟨⟨2, none, none⟩, ⟨none, none, none, none, none⟩, none⟩,
           ⟨⟨3, none, none⟩, ⟨none, none, none, none, none⟩, none⟩,
           ⟨⟨4, none, none⟩, ⟨none, none, none, none, none⟩, none⟩,
           ⟨⟨5, none, none⟩, ⟨none, none, none, none, none⟩,
             none⟩].drop ((2 - 1) * 2)).take 2) ∧
    (paginateFiltered ⟨none, none, none, none, (2 : Int), (2 : Rat), []⟩
        [⟨⟨1, none, none⟩, ⟨none, none, none, none, none⟩, none⟩,
         ⟨⟨2, none, none⟩, ⟨none, none, none, none, none⟩, none⟩,
         ⟨⟨3, none, none⟩, ⟨none, none, none, none, none⟩, none⟩,
         ⟨⟨4, none, none⟩, ⟨none, none, none, none, none⟩, none⟩,
         ⟨⟨5, none, none⟩, ⟨none, none, none, none, none⟩,
           none⟩]).total = 5 ∧
    ((paginateFiltered ⟨none, none, none, none, (2 : Int), (2 : Rat), []⟩
        [⟨⟨1, none, none⟩, ⟨none, none, none, none, none⟩, none⟩,
         ⟨⟨2, none, none⟩, ⟨none, none, none, none, none⟩, none⟩,
         ⟨⟨3, none, none⟩, ⟨none, none, none, none, none⟩, none⟩,
         ⟨⟨4, none, none⟩, ⟨none, none, none, none, none⟩, none⟩,
         ⟨⟨5, none, none⟩, ⟨none, none, none, none, none⟩,
           none⟩]).hasNextPage = true ↔ 2 * 2 < 5) :=
  paginateFiltered_slices _ _ 2 2 (by norm_num) (by norm_num) (by norm_num)
    (by norm_num) (by norm_num)

/-! #### No-filter fast path (C8) -/

lemma normalize_take_pos (q : RawQuery) : 1 ≤ (normalize q).take :=
  le_min (le_max_left 1 _) (by norm_num)

/-- C8 counterexample: the no-filter request `page=2.5&take=3` (`page` is
never floored, see `normalize`) computes the fractional skip
`(2.5 - 1)*3 = 4.5`; the datastore's typed skip/take query rejects it and
the request ends in the 500 branch instead of returning the count plus
the requested page. -/
theorem getProperties_fast_path_claim_false :
    getProperties (fun _ _ => Except.error "e")
        ⟨none, none, none, none, some 3, some (5 / 2), none⟩
        [⟨1, none, none⟩] = GetPropsResult.serverError ∧
    hasWeatherFilters (normalize
      ⟨none, none, none, none, some 3, some (5 / 2), none⟩) = false ∧
    (normalize ⟨none, none, none, none, some 3, some (5 / 2), none⟩).page =
      5 / 2 := by
  have hnf : hasWeatherFilters (normalize
      ⟨none, none, none, none, some 3, some (5 / 2), none⟩) = false := by
    simp [hasWeatherFilters, normalize, parseWeatherGroups]
  have hpage : (normalize
      ⟨none, none, none, none, some 3, some (5 / 2), none⟩).page =
      5 / 2 := by
    show max 1 ((some (5 / 2 : Rat)).getD 1) = 5 / 2
    rw [Option.getD_some, max_eq_right (by norm_num : (1 : Rat) ≤ 5 / 2)]
  have htake : (normalize
      ⟨none, none, none, none, some 3, some (5 / 2), none⟩).take = 3 := by
    show min (max 1 ⌊(some (3 : Rat)).getD 20⌋) 200 = 3
    rw [Option.getD_some]
    norm_num [Int.floor_eq_iff]
  have hskip : ((normalize
      ⟨none, none, none, none, some 3, some (5 / 2), none⟩).page - 1) *
      (((normalize
        ⟨none, none, none, none, some 3, some (5 / 2), none⟩).take) :
        Rat) = 9 / 2 := by
    rw [hpage, htake]
    norm_num
  have hden : ¬ ((9 / 2 : Rat).den = 1 ∧ 0 ≤ (9 / 2 : Rat).num) := by
    rintro ⟨hd, -⟩
    have h := (Rat.den_eq_one_iff _).1 hd
    have h2 : (2 : Rat) * ((9 / 2 : Rat).num : Rat) = 9 := by
      rw [h]; norm_num
    have h3 : (2 : Int) * (9 / 2 : Rat).num = 9 := by exact_mod_cast h2
    omega
  have hdb : dbFindMany [(⟨1, none, none⟩ : Property)]
      (((normalize ⟨none, none, none, none, some 3, some (5 / 2),
        none⟩).page - 1) *
        (((normalize ⟨none, none, none, none, some 3, some (5 / 2),
          none⟩).take) : Rat))
      (normalize ⟨none, none, none, none, some 3, some (5 / 2),
        none⟩).take = none := by
    rw [hskip, dbFindMany, if_neg hden]
  refine ⟨?_, hnf, hpage⟩
  unfold getProperties
  simp only [hnf, Bool.false_eq_true, if_false, hdb]

/-- C8 amended: for every request with no temperature or humidity bound
and no valid weather-group token, the weather fetcher is never invoked
(the result is independent of the fetch oracle); when the `page`
parameter is integral the response is the datastore count plus the
skip/take page verbatim, with `hasNextPage` iff `page·take` is below the
count; but when the unfloored fractional `page` makes the computed skip
`(page - 1)·take` non-integral, the datastore's typed skip/take query
rejects it and the request ends in the 500 branch instead of returning
the page. -/
theorem getProperties_fast_path_spec
    (fW fW' : Rat → Rat → Except String WeatherResult)
    (q : RawQuery) (rows : List Property)
    (h1 : q.tempMin = none) (h2 : q.tempMax = none)
    (h3 : q.humMin = none) (h4 : q.humMax = none)
    (h5 : parseWeatherGroups q.weather = []) :
    (∀ p : Nat, (normalize q).page = (p : Rat) →
      getProperties fW q rows = GetPropsResult.ok
        { data := RespData.plain
            ((rows.drop ((p - 1) * (normalize q).take.toNat)).take
              (normalize q).take.toNat)
          page := (normalize q).page
          take := (normalize q).take
          total := rows.length
          hasNextPage :=
            decide (p * (normalize q).take.toNat < rows.length) }) ∧
    ((((normalize q).page - 1) * ((normalize q).take : Rat)).den ≠ 1 →
      getProperties fW q rows = GetPropsResult.serverError) ∧
    getProperties fW q rows = getProperties fW' q rows := by
  have htkpos := normalize_take_pos q
  have htk : (((normalize q).take.toNat : Int)) = (normalize q).take :=
    Int.toNat_of_nonneg (by omega)
  have hnf : hasWeatherFilters (normalize q) = false := by
    simp [hasWeatherFilters, normalize, h1, h2, h3, h4, h5]
  refine ⟨?_, ?_, ?_⟩
  · intro p hp
    have hp1 : 1 ≤ p := by
      have hmax := le_max_left (1 : Rat) (q.page.getD 1)
      rw [show max (1 : Rat) (q.page.getD 1) = (normalize q).page from rfl,
        hp] at hmax
      exact_mod_cast hmax
    have hstart : ((normalize q).page - 1) * ((normalize q).take : Rat) =
        (((p - 1) * (normalize q).take.toNat : Nat) : Rat) := by
      rw [hp, ← htk, Int.cast_natCast, Nat.cast_mul, Nat.cast_sub hp1,
        Nat.cast_one, Int.toNat_natCast]
    have hdb : dbFindMany rows
        (((normalize q).page - 1) * ((normalize q).take : Rat))
        (normalize q).take =
        some ((rows.drop ((p - 1) * (normalize q).take.toNat)).take
          (normalize q).take.toNat) := by
      rw [hstart, dbFindMany,
        if_pos ⟨Rat.den_natCast _,
          by rw [Rat.num_natCast]; exact Int.natCast_nonneg _⟩,
        Rat.num_natCast, Int.toNat_natCast, ← htk, Int.toNat_natCast]
    have hnext : decide ((normalize q).page * ((normalize q).take : Rat) <
        (rows.length : Rat)) =
        decide (p * (normalize q).take.toNat < rows.length) := by
      apply decide_eq_decide.2
      rw [hp, ← htk, Int.cast_natCast, ← Nat.cast_mul, Nat.cast_lt,
        Int.toNat_natCast]
    unfold getProperties
    simp only [hnf, Bool.false_eq_true, if_false, hnext, hdb]
  · intro hden
    have hdb : dbFindMany rows
        (((normalize q).page - 1) * ((normalize q).take : Rat))
        (normalize q).take = none := by
      rw [dbFindMany, if_neg (fun hc => hden hc.1)]
    unfold getProperties
    simp only [hnf, Bool.false_eq_true, if_false, hdb]
  · unfold getProperties
    simp only [hnf, Bool.false_eq_true, if_false]

/-- Witness for `getProperties_fast_path_spec`: the empty query over an
empty datastore, exercising the integral-page branch at page 1 and the
oracle independence with two different fetch oracles. -/
theorem getProperties_fast_path_spec_witness :
    getProperties (fun _ _ => Except.error "e")
        ⟨none, none, none, none, none, none, none⟩ [] =
      GetPropsResult.ok
        { data := RespData.plain
            (([].drop ((1 - 1) *
              (normalize ⟨none, none, none, none, none, none,
                none⟩).take.toNat)).take
              (normalize ⟨none, none, none, none, none, none,
                none⟩).take.toNat)
          page := (normalize ⟨none, none, none, none, none, none,
            none⟩).page
          take := (normalize ⟨none, none, none, none, none, none,
            none⟩).take
          total := ([] : List Property).length
          hasNextPage :=
            decide (1 * (normalize ⟨none, none, none, none, none, none,
              none⟩).take.toNat < ([] : List Property).length) } ∧
    getProperties (fun _ _ => Except.error "e")
        ⟨none, none, none, none, none, none, none⟩ [] =
      getProperties (fun _ _ => Except.ok ⟨none, none, none, none⟩)
        ⟨none, none, none, none, none, none, none⟩ [] := by
  have h := getProperties_fast_path_spec (fun _ _ => Except.error "e")
    (fun _ _ => Except.ok ⟨none, none, none, none⟩)
    ⟨none, none, none, none, none, none, none⟩ [] rfl rfl rfl rfl rfl
  exact ⟨h.1 1 (by
    show max (1 : Rat) ((none : Option Rat).getD 1) = ((1 : Nat) : Rat)
    simp), h.2.2⟩


/-! #### Batch scan (C1) -/

lemma batchLoopF_spec_aux (fW : Rat → Rat → Except String WeatherResult)
    (crit : Criteria) (rows : List Property) :
    ∀ (fuel : Nat) (filtered : List OutRow) (tc : Nat),
      rows.length - tc < fuel →
      ∃ f tr, batchLoopF fW crit rows fuel filtered tc = some (f, tr) ∧
        tr.length ≤ (rows.length - tc) + 1 ∧
        (∀ (i : Nat) (b : List Property), i + 1 < tr.length →
          tr[i]? = some b →
          b.length = 200 ∨
            (b.length < 200 ∧ b ≠ [] ∧ ∀ p ∈ b, hasCoords p = false)) ∧
        (∀ b, tr.getLast? = some b →
          b.length < 200 ∨
            crit.page * (crit.take : Rat) ≤ (f.length : Rat)) ∧
        (tr = [] → crit.page * (crit.take : Rat) ≤ (f.length : Rat)) := by
  intro fuel
  induction fuel with
  | zero => intro filtered tc h; omega
  | succ fuel ih =>
    intro filtered tc hfuel
    by_cases hguard : ((filtered.length : Rat) < crit.page * (crit.take : Rat))
    · set dbBatch := (rows.drop tc).take 200 with hdbdef
      have hdble : dbBatch.length ≤ rows.length - tc := by
        rw [hdbdef]
        simp [List.length_take, List.length_drop]
      have hdb200 : dbBatch.length ≤ 200 := by
        rw [hdbdef]
        simp [List.length_take]
      by_cases hb0 : dbBatch.length = 0
      · have hstep : batchLoopF fW crit rows (fuel + 1) filtered tc =
            some (filtered, [dbBatch]) := by
          simp only [batchLoopF]
          rw [if_pos hguard, if_pos hb0]
        refine ⟨filtered, [dbBatch], hstep, by simp, ?_, ?_, by simp⟩
        · intro i b hi hb
          simp at hi
        · intro b hb
          rw [List.getLast?_singleton] at hb
          obtain rfl : dbBatch = b := by injection hb
          exact Or.inl (by omega)
      · have hbpos : 1 ≤ dbBatch.length := by omega
        have hfuel' : rows.length - (tc + dbBatch.length) < fuel := by omega
        by_cases hcless : (dbBatch.filter hasCoords).length = 0
        · obtain ⟨f, tr, heq, hlen, hmid, hlast, hnil⟩ :=
            ih filtered (tc + dbBatch.length) hfuel'
          have hstep : batchLoopF fW crit rows (fuel + 1) filtered tc =
              some (f, dbBatch :: tr) := by
            simp only [batchLoopF]
            rw [if_pos hguard, if_neg hb0, if_pos hcless, heq]
            rfl
          refine ⟨f, dbBatch :: tr, hstep, ?_, ?_, ?_, by simp⟩
          · simp only [List.length_cons]
            omega
          · intro i b hi hb
            cases i with
            | zero =>
              rw [List.getElem?_cons_zero] at hb
              obtain rfl : dbBatch = b := by injection hb
              rcases Nat.lt_or_ge dbBatch.length 200 with h200 | h200
              · refine Or.inr ⟨h200, ?_, ?_⟩
                · intro hbn
                  rw [hbn] at hbpos
                  simp at hbpos
                · intro a ha
                  have := List.filter_eq_nil_iff.1
                    (List.length_eq_zero.1 hcless) a ha
                  simpa using this
              · exact Or.inl (by omega)
            | succ i =>
              rw [List.getElem?_cons_succ] at hb
              exact hmid i b (by simp only [List.length_cons] at hi; omega) hb
          · intro b hb
            cases htr : tr with
            | nil =>
              subst htr
              rw [List.getLast?_singleton] at hb
              obtain rfl : dbBatch = b := by injection hb
              exact Or.inr (hnil rfl)
            | cons t' ts =>
              subst htr
              rw [List.getLast?_cons_cons] at hb
              exact hlast b hb
        · by_cases hshort : dbBatch.length < 200
          · have hstep : batchLoopF fW crit rows (fuel + 1) filtered tc =
                some (filtered ++ processBatch fW crit dbBatch, [dbBatch]) := by
              simp only [batchLoopF]
              rw [if_pos hguard, if_neg hb0, if_neg hcless, if_pos hshort]
            refine ⟨filtered ++ processBatch fW crit dbBatch, [dbBatch],
              hstep, by simp, ?_, ?_, by simp⟩
            · intro i b hi hb
              simp at hi
            · intro b hb
              rw [List.getLast?_singleton] at hb
              obtain rfl : dbBatch = b := by injection hb
              exact Or.inl hshort
          · obtain ⟨f, tr, heq, hlen, hmid, hlast, hnil⟩ :=
              ih (filtered ++ processBatch fW crit dbBatch)
                (tc + dbBatch.length) hfuel'
            have hstep : batchLoopF fW crit rows (fuel + 1) filtered tc =
                some (f, dbBatch :: tr) := by
              simp only [batchLoopF]
              rw [if_pos hguard, if_neg hb0, if_neg hcless, if_neg hshort,
                heq]
              rfl
            refine ⟨f, dbBatch :: tr, hstep, ?_, ?_, ?_, by simp⟩
            · simp only [List.length_cons]
              omega
            · intro i b hi hb
              cases i with
              | zero =>
                rw [List.getElem?_cons_zero] at hb
                obtain rfl : dbBatch = b := by injection hb
                exact Or.inl (by omega)
              | succ i =>
                rw [List.getElem?_cons_succ] at hb
                exact hmid i b (by simp only [List.length_cons] at hi; omega)
                  hb
            · intro b hb
              cases htr : tr with
              | nil =>
                subst htr
                rw [List.getLast?_singleton] at hb
                obtain rfl : dbBatch = b := by injection hb
                exact Or.inr (hnil rfl)
              | cons t' ts =>
                subst htr
                rw [List.getLast?_cons_cons] at hb
                exact hlast b hb
    · have hstep : batchLoopF fW crit rows (fuel + 1) filtered tc =
          some (filtered, []) := by
        simp only [batchLoopF]
        rw [if_neg hguard]
      refine ⟨filtered, [], hstep, by simp, ?_, ?_,
        fun _ => not_lt.1 hguard⟩
      · intro i b hi hb
        simp at hi
      · intro b hb
        simp at hb

/-- C1 counterexample: a one-row datastore whose single property lacks
coordinates, with a weather filter active (`page·take = 20`).  The first
batch has 1 < 200 rows, yet the scan does not stop there: the
`withCoords.length === 0` `continue` skips the short-batch check, so a
second (empty) datastore query is issued before the loop ends — the trace
holds two batches. -/
theorem batchLoopF_short_batch_claim_false :
    batchLoopF (fun _ _ => Except.error "e")
        ⟨some 0, none, none, none, 20, 1, []⟩
        [⟨1, none, none⟩] 2 [] 0 =
      some ([], [[⟨1, none, none⟩], []]) ∧
    ([(⟨1, none, none⟩ : Property)].length < 200) := by
  have hg : ((([] : List OutRow).length : Rat) <
      (⟨some 0, none, none, none, 20, 1, []⟩ : Criteria).page *
        ((⟨some 0, none, none, none, 20, 1, []⟩ : Criteria).take : Rat)) := by
    show ((0 : Rat) < 1 * ((20 : Int) : Rat))
    norm_num
  constructor
  · have hstep2 : batchLoopF (fun _ _ => Except.error "e")
        ⟨some 0, none, none, none, 20, 1, []⟩ [⟨1, none, none⟩] 1 [] 1 =
        some ([], [[]]) := by
      simp only [batchLoopF]
      rw [if_pos hg, if_pos (by decide :
        ((([(⟨1, none, none⟩ : Property)].drop 1).take 200).length = 0))]
      rfl
    have hstep1 : batchLoopF (fun _ _ => Except.error "e")
        ⟨some 0, none, none, none, 20, 1, []⟩ [⟨1, none, none⟩] 2 [] 0 =
        (batchLoopF (fun _ _ => Except.error "e")
          ⟨some 0, none, none, none, 20, 1, []⟩ [⟨1, none, none⟩] 1 []
          (0 + (([(⟨1, none, none⟩ : Property)].drop 0).take 200).length)).map
          (fun r => (r.1, (([(⟨1, none, none⟩ : Property)].drop 0).take 200)
            :: r.2)) := by
      simp only [batchLoopF]
      rw [if_pos hg,
        if_neg (by decide :
          ¬ ((([(⟨1, none, none⟩ : Property)].drop 0).take 200).length = 0)),
        if_pos (by decide :
          (((([(⟨1, none, none⟩ : Property)].drop 0).take 200).filter
            hasCoords).length = 0))]
    rw [hstep1,
      show 0 + (([(⟨1, none, none⟩ : Property)].drop 0).take 200).length = 1
        from rfl,
      hstep2]
    rfl
  · decide

/-- C1 amended: the batch-scan loop terminates on every finite datastore —
`rows.length + 1` fuel units always suffice and at most `rows.length + 1`
datastore queries are issued.  Every batch before the last either has
exactly 200 rows or is a short non-empty batch none of whose rows has
valid coordinates (the `continue` path skips the short-batch check there,
so one further, empty, batch is scanned); the scan ends with a batch of
fewer than 200 rows or with the accumulator holding at least `page·take`
rows. -/
theorem batchLoopF_scan_spec (fW : Rat → Rat → Except String WeatherResult)
    (crit : Criteria) (rows : List Property) :
    ∃ f tr, batchLoopF fW crit rows (rows.length + 1) [] 0 = some (f, tr) ∧
      tr.length ≤ rows.length + 1 ∧
      (∀ (i : Nat) (b : List Property), i + 1 < tr.length → tr[i]? = some b →
        b.length = 200 ∨
          (b.length < 200 ∧ b ≠ [] ∧ ∀ p ∈ b, hasCoords p = false)) ∧
      (∀ b, tr.getLast? = some b →
        b.length < 200 ∨ crit.page * (crit.take : Rat) ≤ (f.length : Rat)) ∧
      (tr = [] → crit.page * (crit.take : Rat) ≤ (f.length : Rat)) := by
  obtain ⟨f, tr, heq, hlen, hmid, hlast, hnil⟩ :=
    batchLoopF_spec_aux fW crit rows (rows.length + 1) [] 0 (by omega)
  exact ⟨f, tr, heq, by omega, hmid, hlast, hnil⟩

/-- Witness for `batchLoopF_scan_spec` on a one-row datastore with a
coordinate-bearing property. -/
theorem batchLoopF_scan_spec_witness :
    ∃ f tr, batchLoopF (fun _ _ => Except.error "e")
        ⟨some 0, none, none, none, 20, 1, []⟩ [⟨1, some 10, some 20⟩]
        (([(⟨1, some 10, some 20⟩ : Property)]).length + 1) [] 0 =
        some (f, tr) ∧
      tr.length ≤ ([(⟨1, some 10, some 20⟩ : Property)]).length + 1 ∧
      (∀ (i : Nat) (b : List Property), i + 1 < tr.length → tr[i]? = some b →
        b.length = 200 ∨
          (b.length < 200 ∧ b ≠ [] ∧ ∀ p ∈ b, hasCoords p = false)) ∧
      (∀ b, tr.getLast? = some b →
        b.length < 200 ∨
          (⟨some 0, none, none, none, 20, 1, []⟩ : Criteria).page *
            (((⟨some 0, none, none, none, 20, 1, []⟩ : Criteria).take :
              Int) : Rat) ≤ (f.length : Rat)) ∧
      (tr = [] →
        (⟨some 0, none, none, none, 20, 1, []⟩ : Criteria).page *
          (((⟨some 0, none, none, none, 20, 1, []⟩ : Criteria).take :
            Int) : Rat) ≤ (f.length : Rat)) :=
  batchLoopF_scan_spec (fun _ _ => Except.error "e")
    ⟨some 0, none, none, none, 20, 1, []⟩ [⟨1, some 10, some 20⟩]

end PropWeather
